import Mathlib

/-
Verification of the tool-call scoring engine in
src/ha_voice_bench/scorers/tool_call.py.

The scorer operates on JSON-decoded Python values (lists, dicts, strings,
numbers, booleans, None).  We embed those values shallowly as the inductive
type Value below.  Python floats are modelled by the exact rational value of
their IEEE binary64 representation: a vFloat payload is read through roundF
(round to nearest double), float subtraction rounds its exact result the
same way, and the source's tolerance constant 0.01 is the double
5764607523034235 / 2^59.  Python exceptions that can
escape the scorer (TypeError from len() on a non-sized value, KeyError from
subscription, AttributeError from .get on a non-dict) are modelled with
Except PyErr.  String operations (strip, lower, endswith, slicing) are
modelled character-wise, matching Python's character-based semantics for the
ASCII data the scorer handles.
-/

namespace ToolCallScorer

/-- Python exceptions that can escape the scorer's computations. -/
inductive PyErr where
  | typeError
  | keyError
  | attributeError
deriving DecidableEq, Repr

/-- Ternary verdict; the source uses the one-character string sentinels
C = "C", I = "I", N = "N" (tool_call.py lines 31-33). -/
inductive Verdict where
  | C
  | I
  | N
deriving DecidableEq, Repr

/-- The string the source renders for a verdict (its sentinel character). -/
def Verdict.render : Verdict → String
  | .C => "C"
  | .I => "I"
  | .N => "N"

/-- JSON-decoded Python values.  A vFloat payload q denotes the Python
float (IEEE binary64 value) nearest to q; floatVal below performs that
reading, so vFloat (mkRat 101 100) denotes the double written 1.01. -/
inductive Value where
  | vNone
  | vBool (b : Bool)
  | vInt (n : ℤ)
  | vFloat (q : ℚ)
  | vStr (s : String)
  | vList (items : List Value)
  | vDict (entries : List (String × Value))

/-- Whether a value is Python None. -/
def Value.isNone : Value → Bool
  | .vNone => true
  | _ => false

/-- isinstance(v, list). -/
def Value.isList : Value → Bool
  | .vList _ => true
  | _ => false

/-- isinstance(v, dict). -/
def Value.isDict : Value → Bool
  | .vDict _ => true
  | _ => false

/-- isinstance(v, float). -/
def Value.isFloat : Value → Bool
  | .vFloat _ => true
  | _ => false

/-- Numeric reading of a value: isinstance(v, (int, float)) in Python also
accepts bool, a subclass of int. -/
def asNum : Value → Option ℚ
  | .vInt n => some (n : ℚ)
  | .vFloat q => some q
  | .vBool b => some (if b then 1 else 0)
  | _ => none

/-- isinstance(v, (int, float)) — Python bools are ints. -/
def isPyNumber (v : Value) : Bool :=
  (asNum v).isSome

/-- Rational carried by a numeric value (0 for non-numeric values, which the
scorer never asks for). -/
def ratOf (v : Value) : ℚ :=
  (asNum v).getD 0

/-- Python truthiness of a value. -/
def pyTruthy : Value → Bool
  | .vNone => false
  | .vBool b => b
  | .vInt n => decide (n ≠ 0)
  | .vFloat q => decide (q ≠ 0)
  | .vStr s => decide (s ≠ "")
  | .vList items => !items.isEmpty
  | .vDict entries => !entries.isEmpty

/-- Looks a key up in a dict's entry list, removing the matched entry; helper
for Python dict equality. -/
def lookupRemove (k : String) : List (String × Value) → Option Value × List (String × Value)
  | [] => (none, [])
  | (k2, v) :: rest =>
    if k = k2 then (some v, rest)
    else
      let (f, r) := lookupRemove k rest
      (f, (k2, v) :: r)

mutual
/-- Python == on values: numeric values compare by value across int, float
and bool; lists compare elementwise; dicts compare as mappings. -/
def pyEq : Value → Value → Bool
  | a, b =>
    match asNum a, asNum b with
    | some x, some y => decide (x = y)
    | _, _ =>
      match a, b with
      | .vNone, .vNone => true
      | .vStr s, .vStr t => decide (s = t)
      | .vList xs, .vList ys => pyEqL xs ys
      | .vDict xs, .vDict ys => pyEqD xs ys
      | _, _ => false

/-- Python list equality, elementwise. -/
def pyEqL : List Value → List Value → Bool
  | [], [] => true
  | x :: xs, y :: ys => pyEq x y && pyEqL xs ys
  | _, _ => false

/-- Python dict equality, as mappings. -/
def pyEqD : List (String × Value) → List (String × Value) → Bool
  | [], ys => ys.isEmpty
  | (k, v) :: rest, ys =>
    match lookupRemove k ys with
    | (some w, ys2) => pyEq v w && pyEqD rest ys2
    | (none, _) => false
end

/-- Code-point lexicographic order on character lists (Python string <). -/
def charListLt : List Char → List Char → Bool
  | [], [] => false
  | [], _ :: _ => true
  | _ :: _, [] => false
  | c :: cs, d :: ds => if c = d then charListLt cs ds else decide (c < d)

mutual
/-- Python < on values: defined within the numeric class, between strings
(code-point lexicographic) and between lists (lexicographic); everything
else raises TypeError, modelled as none. -/
def pyLt : Value → Value → Option Bool
  | a, b =>
    match asNum a, asNum b with
    | some x, some y => some (decide (x < y))
    | _, _ =>
      match a, b with
      | .vStr s, .vStr t => some (charListLt s.data t.data)
      | .vList xs, .vList ys => pyLtL xs ys
      | _, _ => none

/-- Python list < : lexicographic. -/
def pyLtL : List Value → List Value → Option Bool
  | [], [] => some false
  | [], _ :: _ => some true
  | _ :: _, [] => some false
  | x :: xs, y :: ys => if pyEq x y then pyLtL xs ys else pyLt x y
end

/-- Python str.lower(), ASCII (the scorer's data is ASCII; Char.toLower is
the ASCII lowering). -/
def pyLowerStr (s : String) : String :=
  ⟨s.data.map Char.toLower⟩

/-- Whitespace characters recognised by Python str.strip(). -/
def isPyWS (c : Char) : Bool :=
  c == ' ' || c == '\t' || c == '\n' || c == '\r' || c == '\x0b' || c == '\x0c'

/-- Python str.strip(): drop leading and trailing whitespace. -/
def pyStripStr (s : String) : String :=
  ⟨((s.data.dropWhile isPyWS).reverse.dropWhile isPyWS).reverse⟩

/-- Python str.endswith(suffix), character-based. -/
def pyEndsWith (s sfx : String) : Bool :=
  decide (sfx.data <:+ s.data)

/-- Python s[:-n] slicing, character-based (empty result when len(s) <= n). -/
def pySliceToMinus (s : String) (n : Nat) : String :=
  ⟨s.data.take (s.data.length - n)⟩

/-- Python sep.join(parts). -/
def joinSep (sep : String) : List String → String
  | [] => ""
  | [x] => x
  | x :: xs => x ++ sep ++ joinSep sep xs

/-- Rendering of our rational float model: integral floats render like
Python ("2.0"); non-integral floats render as num/den (the scorer's claims
never inspect stringified non-integral numbers). -/
def floatRepr (q : ℚ) : String :=
  if q.den = 1 then toString q.num ++ ".0" else toString q.num ++ "/" ++ toString q.den

mutual
/-- Python repr() of a value (string escaping inside repr is elided: the
scorer's data contains no quotes or backslashes). -/
def pyRepr : Value → String
  | .vNone => "None"
  | .vBool b => if b then "True" else "False"
  | .vInt n => toString n
  | .vFloat q => floatRepr q
  | .vStr s => "'" ++ s ++ "'"
  | .vList xs => "[" ++ joinSep ", " (pyReprL xs) ++ "]"
  | .vDict d => "\x7b" ++ joinSep ", " (pyReprD d) ++ "\x7d"

/-- Python repr of each element of a list. -/
def pyReprL : List Value → List String
  | [] => []
  | x :: xs => pyRepr x :: pyReprL xs

/-- Python repr of each key-value entry of a dict. -/
def pyReprD : List (String × Value) → List String
  | [] => []
  | (k, v) :: rest => ("'" ++ k ++ "': " ++ pyRepr v) :: pyReprD rest
end

/-- Python str() of a value: identity on strings, repr on everything else. -/
def pyStr : Value → String
  | .vStr s => s
  | v => pyRepr v

/-- The scorer's _normalize (tool_call.py lines 250-252):
str(value).strip().lower(). -/
def pyNormalize (v : Value) : String :=
  pyLowerStr (pyStripStr (pyStr v))

/-- Python len(): defined for strings, lists and dicts; TypeError otherwise. -/
def pyLen : Value → Except PyErr Nat
  | .vStr s => .ok s.length
  | .vList xs => .ok xs.length
  | .vDict d => .ok d.length
  | _ => .error .typeError

/-- Python iteration: lists yield their items, strings their characters,
dicts their keys; TypeError otherwise. -/
def pyIter : Value → Except PyErr (List Value)
  | .vList xs => .ok xs
  | .vStr s => .ok (s.data.map fun c => .vStr ⟨[c]⟩)
  | .vDict d => .ok (d.map fun p => .vStr p.1)
  | _ => .error .typeError

/-- Lookup in a dict's entries with a default (Python dict.get on the
underlying entry list). -/
def dictGetD (entries : List (String × Value)) (k : String) (d : Value) : Value :=
  (List.lookup k entries).getD d

/-- Python v.get(k, default): AttributeError when v is not a dict. -/
def pyDictGet (v : Value) (k : String) (d : Value) : Except PyErr Value :=
  match v with
  | .vDict entries => .ok (dictGetD entries k d)
  | _ => .error .attributeError

/-- Python v[k] with a string key: KeyError when the key is absent from a
dict, TypeError when v does not support string subscription. -/
def pyGetItem (v : Value) (k : String) : Except PyErr Value :=
  match v with
  | .vDict entries =>
    match List.lookup k entries with
    | some w => .ok w
    | none => .error .keyError
  | _ => .error .typeError

/-- Python substring test for the in operator on strings. -/
def strContainsSub (s sub : String) : Bool :=
  decide (sub.data <:+: s.data)

/-- Python item in container: key membership for dicts, elementwise == for
lists, substring for strings; TypeError otherwise. -/
def pyContains (container item : Value) : Except PyErr Bool :=
  match container with
  | .vDict entries => .ok (entries.any fun p => pyEq item (.vStr p.1))
  | .vList xs => .ok (xs.any fun x => pyEq item x)
  | .vStr s =>
    match item with
    | .vStr sub => .ok (strContainsSub s sub)
    | _ => .error .typeError
  | _ => .error .typeError

/-! IEEE binary64 model for the numeric tolerance test.  The source's
abs(expected_value - actual_value) > 0.01 (tool_call.py line 238) runs in
Python float arithmetic whenever a float operand is involved, so the
subtraction rounds to the nearest double and the comparison is against the
double value of the literal 0.01.  The concrete dyadic rationals computed
here are cross-checked against CPython: (0.01).hex() = 0x1.47ae147ae147bp-7,
(1.01).hex() = 0x1.028f5c28f5c29p+0, and 1.01 - 1.0 evaluates to
45035996273705 / 2^52 = 0.010000000000000009 > 0.01. -/

/-- Fuel-driven floor log2; with fuel at least n it computes the floor of
log2 n exactly (each step halves n, so n steps always suffice). -/
def log2Fuel : Nat → Nat → Nat
  | 0, _ => 0
  | fuel + 1, n => if 2 ≤ n then log2Fuel fuel (n / 2) + 1 else 0

/-- Kernel-computable floor of log2 for positive naturals. -/
def natLog2 (n : Nat) : Nat := log2Fuel n n

/-- Exact rational subtraction by cross-multiplication (kernel-computable,
unlike the Sub instance). -/
def ratSub (x y : ℚ) : ℚ := mkRat (x.num * y.den - y.num * x.den) (x.den * y.den)

/-- Kernel-computable absolute value on the rationals. -/
def ratAbs (x : ℚ) : ℚ := if x.num < 0 then mkRat (-x.num) x.den else x

/-- Rounds the fraction num/den (den > 0) to the nearest integer, ties to
even. -/
def roundIntNE (num den : ℤ) : ℤ :=
  let f := Int.fdiv num den
  let r := num - f * den
  if 2 * r < den then f
  else if den < 2 * r then f + 1
  else if f % 2 = 0 then f else f + 1

/-- Tests 2^e <= x for a positive rational x, by integer comparison. -/
def pow2LeRat (e : ℤ) (x : ℚ) : Bool :=
  if 0 ≤ e then decide ((x.den : ℤ) * ((2 ^ e.toNat : ℕ) : ℤ) ≤ x.num)
  else decide ((x.den : ℤ) ≤ x.num * ((2 ^ (-e).toNat : ℕ) : ℤ))

/-- The binade exponent of a positive rational: the unique e with
2^e <= x < 2^(e+1). -/
def ratLog2 (x : ℚ) : ℤ :=
  let e0 : ℤ := (natLog2 x.num.natAbs : ℤ) - (natLog2 x.den : ℤ)
  if pow2LeRat (e0 + 1) x then e0 + 1
  else if pow2LeRat e0 x then e0
  else e0 - 1

/-- Rounds a positive rational to the nearest IEEE binary64 value
(53 significant bits, round to nearest, ties to even; normal range — the
scorer's numeric data is far from subnormal or overflow territory). -/
def roundFPos (x : ℚ) : ℚ :=
  let e := ratLog2 x
  let s := 52 - e
  let m := if 0 ≤ s then roundIntNE (x.num * ((2 ^ s.toNat : ℕ) : ℤ)) (x.den : ℤ)
           else roundIntNE x.num ((x.den : ℤ) * ((2 ^ (-s).toNat : ℕ) : ℤ))
  if 0 ≤ e - 52 then ((m * ((2 ^ (e - 52).toNat : ℕ) : ℤ) : ℤ) : ℚ)
  else mkRat m (2 ^ (52 - e).toNat)

/-- Rounds a rational to the nearest IEEE binary64 value. -/
def roundF (x : ℚ) : ℚ :=
  if x.num = 0 then 0
  else if x.num < 0 then ratSub 0 (roundFPos (ratSub 0 x))
  else roundFPos x

/-- IEEE binary64 subtraction of exactly-represented operands: the exact
difference rounded to nearest, ties to even. -/
def fSub (x y : ℚ) : ℚ := roundF (ratSub x y)

/-- The exact value of the Python float literal 0.01
(0x1.47ae147ae147bp-7 = 5764607523034235 / 2^59). -/
def f001 : ℚ := roundF (mkRat 1 100)

/-- The double denoted by a numeric value: a vFloat payload is read through
binary64 rounding (every Python float is exactly a double), and ints and
bools convert as Python's float() does, rounding likewise. -/
def floatVal (v : Value) : ℚ := roundF (ratOf v)

/-- The value Python computes for abs(expected_value - actual_value)
(line 238): IEEE binary64 subtraction when either operand is a float, exact
integer subtraction when both are ints or bools; abs is exact either way. -/
def pyAbsDiff (ev av : Value) : ℚ :=
  if ev.isFloat || av.isFloat then ratAbs (fSub (floatVal ev) (floatVal av))
  else ratAbs (ratSub (ratOf ev) (ratOf av))

/-- The source's tolerance test abs(expected_value - actual_value) > 0.01
(line 238): the comparison against the double 0.01 is exact on values
(Python compares ints and floats exactly). -/
def tolExceeded (ev av : Value) : Bool :=
  decide (f001 < pyAbsDiff ev av)

/-- Inserts a value into an already sorted list, comparing with Python <;
TypeError when a needed comparison is undefined. -/
def insertSortedM (x : Value) : List Value → Except PyErr (List Value)
  | [] => .ok [x]
  | y :: ys =>
    match pyLt x y with
    | none => .error .typeError
    | some true => .ok (x :: y :: ys)
    | some false => do
      let t ← insertSortedM x ys
      .ok (y :: t)

/-- Python sorted() on values: insertion sort with Python <.  Performs no
comparison on lists of length at most one and raises TypeError on
heterogeneous lists, exactly as CPython's sort does. -/
def sortedM : List Value → Except PyErr (List Value)
  | [] => .ok []
  | x :: xs => do
    let t ← sortedM xs
    insertSortedM x t

/-- Inserts a string into a sorted list of strings under Python string <. -/
def insertStrSorted (x : String) : List String → List String
  | [] => [x]
  | y :: ys => if charListLt x.data y.data then x :: y :: ys else y :: insertStrSorted x ys

/-- Python sorted() on a list of strings. -/
def sortStrs : List String → List String
  | [] => []
  | x :: xs => insertStrSorted x (sortStrs xs)

/-- Character escaping for json.dumps string rendering (quote and
backslash; the scorer's data carries no other escapable characters). -/
def jsonEscapeChar (c : Char) : String :=
  if c = '\\' then "\\\\" else if c = '"' then "\\\"" else ⟨[c]⟩

mutual
/-- Python json.dumps with default separators. -/
def jsonDumps : Value → String
  | .vNone => "null"
  | .vBool b => if b then "true" else "false"
  | .vInt n => toString n
  | .vFloat q => floatRepr q
  | .vStr s => "\"" ++ joinSep "" (s.data.map jsonEscapeChar) ++ "\""
  | .vList xs => "[" ++ joinSep ", " (jsonDumpsL xs) ++ "]"
  | .vDict d => "\x7b" ++ joinSep ", " (jsonDumpsD d) ++ "\x7d"

/-- json.dumps of each element of a list. -/
def jsonDumpsL : List Value → List String
  | [] => []
  | x :: xs => jsonDumps x :: jsonDumpsL xs

/-- json.dumps of each entry of a dict. -/
def jsonDumpsD : List (String × Value) → List String
  | [] => []
  | (k, v) :: rest =>
    ("\"" ++ joinSep "" (k.data.map jsonEscapeChar) ++ "\": " ++ jsonDumps v) :: jsonDumpsD rest
end

/-! Scorer translation (tool_call.py). -/

/-- Valid HA intent tool names (tool_call.py lines 17-29). -/
def VALID_TOOL_NAMES : List String :=
  ["HassTurnOn", "HassTurnOff", "HassLightSet", "HassSetPosition", "HassGetState",
   "HassClimateSetTemperature", "HassClimateGetTemperature", "HassGetCurrentTime",
   "HassGetCurrentDate", "HassGetWeather", "HassNevermind"]

/-- Query tool names recognised by _check_response_type (lines 143-149). -/
def QUERY_TOOLS : List String :=
  ["HassGetState", "HassClimateGetTemperature", "HassGetWeather",
   "HassGetCurrentTime", "HassGetCurrentDate"]

/-- Python membership of a value in a set of strings (hash sets compare
members with ==). -/
def valueInStrList (v : Value) (names : List String) : Bool :=
  names.any fun s => pyEq v (.vStr s)

/-- The generator any(c.get("name") in query_tools for c in actual_calls)
of _check_response_type: short-circuits at the first hit. -/
def anyNameInQuery : List Value → Except PyErr Bool
  | [] => .ok false
  | c :: rest => do
    let nm ← pyDictGet c "name" .vNone
    if valueInStrList nm QUERY_TOOLS then .ok true else anyNameInQuery rest

/-- _check_response_type (tool_call.py lines 134-155).  The expected_calls
parameter is unused by the source body and kept for signature fidelity. -/
def checkResponseType (expectedType : String) (_expectedCalls : Value)
    (actualCalls : List Value) : Except PyErr Verdict := do
  if expectedType = "action_done" then
    return (if actualCalls.isEmpty then .I else .C)
  else if expectedType = "query_response" then
    let b ← anyNameInQuery actualCalls
    return (if b then .C else .I)
  else if expectedType = "text_response" then
    return (if actualCalls.isEmpty then .C else .I)
  else if expectedType = "error" ∨ expectedType = "clarification" then
    return (if actualCalls.isEmpty then .C else .I)
  else
    return .N

/-- Loop body of _check_format_validity (lines 162-167). -/
def formatLoop : List Value → Except PyErr Verdict
  | [] => .ok .C
  | call :: rest => do
    let nm ← pyDictGet call "name" .vNone
    if !pyTruthy nm then return .I
    let args ← pyDictGet call "arguments" (.vDict [])
    let hasRaw ← pyContains args (.vStr "_raw")
    if hasRaw then return .I
    formatLoop rest

/-- _check_format_validity (tool_call.py lines 158-167). -/
def checkFormatValidity (actualCalls : List Value) : Except PyErr Verdict :=
  if actualCalls.isEmpty then .ok .N else formatLoop actualCalls

/-- _check_call_count (tool_call.py lines 170-174). -/
def checkCallCount (expectedCalls : Value) (actualCalls : List Value) :
    Except PyErr Verdict := do
  if !pyTruthy expectedCalls && actualCalls.isEmpty then return .C
  let n ← pyLen expectedCalls
  return (if n = actualCalls.length then .C else .I)

/-- Monadic map over Except, the translation of Python's generator
expressions and list comprehensions consumed left to right. -/
def mapExcept (f : Value → Except PyErr Value) : List Value → Except PyErr (List Value)
  | [] => .ok []
  | x :: xs => do
    let y ← f x
    let ys ← mapExcept f xs
    .ok (y :: ys)

/-- Monadic map over Except producing strings. -/
def mapExceptStr (f : Value → Except PyErr String) : List Value → Except PyErr (List String)
  | [] => .ok []
  | x :: xs => do
    let y ← f x
    let ys ← mapExceptStr f xs
    .ok (y :: ys)

/-- _check_tool_names (tool_call.py lines 177-185): sorted multisets of
names must coincide; expected calls are subscripted (c["name"]), actual
calls use c.get("name"). -/
def checkToolNames (expectedCalls : Value) (actualCalls : List Value) :
    Except PyErr Verdict := do
  if !pyTruthy expectedCalls then return .N
  if actualCalls.isEmpty then return .I
  let exps ← pyIter expectedCalls
  let expNames ← mapExcept (fun c => pyGetItem c "name") exps
  let expSorted ← sortedM expNames
  let actNames ← mapExcept (fun c => pyDictGet c "name" .vNone) actualCalls
  let actSorted ← sortedM actNames
  return (if pyEqL expSorted actSorted then .C else .I)

/-- Per-key loop of _tool_call_matches (tool_call.py lines 222-246). -/
def matchesArgLoop (actArgs : Value) : List (String × Value) → Except PyErr Bool
  | [] => .ok true
  | (key, expValue) :: rest => do
    if pyEndsWith key "_any_of" then
      let baseKey := pySliceToMinus key 7
      let actValue ← pyDictGet actArgs baseKey .vNone
      if actValue.isNone then return false
      match expValue with
      | .vList alts =>
        if !(alts.any fun v => pyNormalize actValue = pyNormalize v) then return false
        matchesArgLoop actArgs rest
      | _ => matchesArgLoop actArgs rest
    else
      let actValue ← pyDictGet actArgs key .vNone
      if actValue.isNone then return false
      if isPyNumber expValue && isPyNumber actValue then
        if tolExceeded expValue actValue then return false
        matchesArgLoop actArgs rest
      else
        match expValue, actValue with
        | .vList el, .vList al =>
          if sortStrs (el.map fun v => pyLowerStr (pyStr v)) ≠
              sortStrs (al.map fun v => pyLowerStr (pyStr v)) then return false
          matchesArgLoop actArgs rest
        | _, _ =>
          if pyNormalize actValue ≠ pyNormalize expValue then return false
          matchesArgLoop actArgs rest

/-- _tool_call_matches (tool_call.py lines 212-247). -/
def toolCallMatches (expected actual : Value) : Except PyErr Bool := do
  let eName ← pyDictGet expected "name" .vNone
  let aName ← pyDictGet actual "name" .vNone
  if !pyEq eName aName then return false
  let expArgs ← pyDictGet expected "arguments" (.vDict [])
  if !pyTruthy expArgs then return true
  let actArgs ← pyDictGet actual "arguments" (.vDict [])
  match expArgs with
  | .vDict entries => matchesArgLoop actArgs entries
  | _ => .error .attributeError

/-- Inner scan of _check_arguments (lines 202-206): first unmatched actual
index whose call matches the expected one. -/
def findFirstMatch (exp : Value) (actualCalls : List Value) :
    List Nat → Except PyErr (Option Nat)
  | [] => .ok none
  | i :: rest => do
    let b ← toolCallMatches exp (actualCalls.getD i .vNone)
    if b then .ok (some i) else findFirstMatch exp actualCalls rest

/-- Greedy matching loop of _check_arguments (lines 199-209). -/
def greedyMatch (actualCalls : List Value) :
    List Value → List Nat → Except PyErr Bool
  | [], _ => .ok true
  | e :: es, unmatched => do
    match ← findFirstMatch e actualCalls unmatched with
    | none => .ok false
    | some i => greedyMatch actualCalls es (unmatched.erase i)

/-- _check_arguments (tool_call.py lines 188-209). -/
def checkArguments (expectedCalls : Value) (actualCalls : List Value) :
    Except PyErr Verdict := do
  if !pyTruthy expectedCalls then return .N
  let n ← pyLen expectedCalls
  if n ≠ actualCalls.length then return .I
  let exps ← pyIter expectedCalls
  let allMatched ← greedyMatch actualCalls exps (List.range actualCalls.length)
  return (if allMatched then .C else .I)

/-- Loop of _check_no_hallucinated_tools (lines 259-262): only truthy names
are tested against the allow-list. -/
def hallucinationLoop : List Value → Except PyErr Verdict
  | [] => .ok .C
  | call :: rest => do
    let nm ← pyDictGet call "name" .vNone
    if pyTruthy nm && !valueInStrList nm VALID_TOOL_NAMES then return .I
    hallucinationLoop rest

/-- _check_no_hallucinated_tools (tool_call.py lines 255-263). -/
def checkNoHallucinatedTools (actualCalls : List Value) : Except PyErr Verdict :=
  if actualCalls.isEmpty then .ok .N else hallucinationLoop actualCalls

/-- Result dictionary of _score_dimensions, with the fixed key order of the
source's dict literal (lines 96-103). -/
structure DimensionResults where
  response_type : Verdict
  format_valid : Verdict
  call_count : Verdict
  tool_name : Verdict
  args : Verdict
  no_hallucinated_tools : Verdict
deriving DecidableEq, Repr

/-- Values of the results dict in declaration order. -/
def DimensionResults.toList (r : DimensionResults) : List Verdict :=
  [r.response_type, r.format_valid, r.call_count, r.tool_name, r.args,
   r.no_hallucinated_tools]

/-- _score_dimensions (tool_call.py lines 90-103); the dict literal
evaluates its six values in order, so an exception in an earlier check
pre-empts the later ones. -/
def scoreDimensions (expectedCalls : Value) (actualCalls : List Value)
    (expectedType : String) : Except PyErr DimensionResults := do
  let rt ← checkResponseType expectedType expectedCalls actualCalls
  let fv ← checkFormatValidity actualCalls
  let cc ← checkCallCount expectedCalls actualCalls
  let tn ← checkToolNames expectedCalls actualCalls
  let ar ← checkArguments expectedCalls actualCalls
  let nh ← checkNoHallucinatedTools actualCalls
  return ⟨rt, fv, cc, tn, ar, nh⟩

/-- Aggregation of score (tool_call.py lines 51-52): every dimension verdict
other than N must be C. -/
def applicableAllCorrect (r : DimensionResults) : Bool :=
  (r.toList.filter fun v => decide (v ≠ Verdict.N)).all fun v => decide (v = Verdict.C)

/-- Overall verdict from the dimension results (line 52). -/
def overallVerdict (r : DimensionResults) : Verdict :=
  if applicableAllCorrect r then .C else .I

/-- The Score record produced by the scorer: overall value, serialized
actual calls (answer) and explanation text. -/
structure Score where
  value : Verdict
  answer : String
  explanation : String
deriving DecidableEq, Repr

/-- _error_score (tool_call.py lines 296-302). -/
def errorScoreMk (message : String) : Score :=
  ⟨Verdict.I, "", "Scoring error: " ++ message⟩

/-- Normalization of one alternative spec (tool_call.py lines 61-69):
dicts supply tool_calls/quality/reason with defaults, anything else is the
legacy bare-list form with quality "acceptable" and empty reason. -/
def normalizeAlt (alt : Value) : Except PyErr (Value × Value × Value) :=
  match alt with
  | .vDict _ => do
    let calls ← pyDictGet alt "tool_calls" (.vList [])
    let quality ← pyDictGet alt "quality" (.vStr "acceptable")
    let reason ← pyDictGet alt "reason" (.vStr "")
    .ok (calls, quality, reason)
  | _ => .ok (alt, .vStr "acceptable", .vStr "")

/-- Alternative fallback loop of score (tool_call.py lines 60-77): first
alternative whose applicable dimensions are all Correct is adopted; none
leaves the primary results in place. -/
def tryAlternatives (actualCalls : List Value) (expectedType : String) :
    List Value → Except PyErr (Option (DimensionResults × Value × Value))
  | [] => .ok none
  | alt :: rest => do
    let (altCalls, altQuality, altReason) ← normalizeAlt alt
    let altResults ← scoreDimensions altCalls actualCalls expectedType
    if applicableAllCorrect altResults then
      .ok (some (altResults, altQuality, altReason))
    else
      tryAlternatives actualCalls expectedType rest

/-- _serialize_actual_calls (tool_call.py lines 266-268). -/
def serializeActualCalls (actualCalls : List Value) : Except PyErr (List Value) :=
  mapExcept
    (fun c => do
      let nm ← pyDictGet c "name" .vNone
      let args ← pyDictGet c "arguments" (.vDict [])
      .ok (Value.vDict [("name", nm), ("arguments", args)]))
    actualCalls

/-- One call line of _build_explanation (lines 286 and 288):
"  name(arguments)" with missing fields defaulted. -/
def renderCallLine (c : Value) : Except PyErr String := do
  let nm ← pyDictGet c "name" (.vStr "?")
  let args ← pyDictGet c "arguments" (.vDict [])
  .ok ("  " ++ pyStr nm ++ "(" ++ pyStr args ++ ")")

/-- One checklist line of _build_explanation (line 291). -/
def checkLine (k : String) (v : Verdict) : String :=
  "  " ++ (if v = Verdict.C then "C" else if v = Verdict.I then "I" else "-") ++
    " " ++ k ++ ": " ++ v.render

/-- Checklist block of _build_explanation in the fixed dimension order. -/
def checklistLines (r : DimensionResults) : List String :=
  [checkLine "response_type" r.response_type,
   checkLine "format_valid" r.format_valid,
   checkLine "call_count" r.call_count,
   checkLine "tool_name" r.tool_name,
   checkLine "args" r.args,
   checkLine "no_hallucinated_tools" r.no_hallucinated_tools]

/-- _build_explanation (tool_call.py lines 271-293). -/
def buildExplanation (expectedCalls : Value) (actualCalls : List Value)
    (results : DimensionResults) (matchQuality matchReason : Value) :
    Except PyErr String := do
  let reasonLines := if pyTruthy matchReason then ["MATCH_REASON: " ++ pyStr matchReason] else []
  let n ← pyLen expectedCalls
  let exps ← pyIter expectedCalls
  let expLines ← mapExceptStr renderCallLine exps
  let actLines ← mapExceptStr renderCallLine actualCalls
  let allLines :=
    ["MATCH_QUALITY: " ++ pyStr matchQuality] ++ reasonLines ++
    ["Expected " ++ toString n ++ " call(s):"] ++ expLines ++
    ["Got " ++ toString actualCalls.length ++ " call(s):"] ++ actLines ++
    ["", "Checks:"] ++ checklistLines results
  .ok (joinSep "\n" allLines)

/-- The score coroutine body (tool_call.py lines 40-85).  The target
argument is the outcome of json.loads(target.text): none models a parse
failure (JSONDecodeError, or TypeError from a non-string target), some v the
decoded value, which the source does not check for being a list.  The
actualCalls argument is the list produced by _extract_tool_calls, and
alternatives is the metadata value after the line-59 string-decoding step. -/
def score (target : Option Value) (actualCalls : List Value)
    (expectedType : String) (alternatives : Value) : Except PyErr Score := do
  match target with
  | none => return errorScoreMk "Target parse error"
  | some expectedCalls =>
    let primary ← scoreDimensions expectedCalls actualCalls expectedType
    let overall0 := overallVerdict primary
    let (overall, results, matchQuality, matchReason) ←
      if overall0 = Verdict.I then do
        let altList ← pyIter alternatives
        match ← tryAlternatives actualCalls expectedType altList with
        | some (r, q, rs) => pure (Verdict.C, r, q, rs)
        | none => pure (overall0, primary, Value.vStr "optimal", Value.vStr "")
      else
        pure (overall0, primary, Value.vStr "optimal", Value.vStr "")
    let explanation ← buildExplanation expectedCalls actualCalls results matchQuality matchReason
    let serialized ← serializeActualCalls actualCalls
    return ⟨overall, jsonDumps (.vList serialized), explanation⟩

/-! Definitions supporting the claim statements. -/

deriving instance DecidableEq for Except

/-- Builder for a well-formed call dict {"name": nm, "arguments": args}. -/
def mkCall (nm : String) (args : List (String × Value)) : Value :=
  .vDict [("name", .vStr nm), ("arguments", .vDict args)]

/-- Values that are Python ints or floats proper (the numeric values the
tolerance rule speaks about; bools are excluded here even though Python's
isinstance check also admits them). -/
def isIntOrFloat : Value → Bool
  | .vInt _ => true
  | .vFloat _ => true
  | _ => false

/-- The name field of a call dict, as dict.get("name") returns it. -/
def nameField : Value → Value
  | .vDict d => dictGetD d "name" .vNone
  | _ => .vNone

/-- An actual call with a truthy name outside the allow-list (what the
hallucination loop flags). -/
def flaggedCall (c : Value) : Prop :=
  pyTruthy (nameField c) = true ∧ valueInStrList (nameField c) VALID_TOOL_NAMES = false

/-- An alternative spec that normalizes and scores but whose applicable
dimensions are not all Correct. -/
def AltFails (alt : Value) (actualCalls : List Value) (expectedType : String) : Prop :=
  ∃ c q r res, normalizeAlt alt = .ok (c, q, r) ∧
    scoreDimensions c actualCalls expectedType = .ok res ∧
    applicableAllCorrect res = false

/-- Expected call with empty arguments used in the greedy mispairing
demonstration. -/
def greedyExp1 : Value := mkCall "HassTurnOn" []

/-- Expected call with one argument used in the greedy mispairing
demonstration. -/
def greedyExp2 : Value := mkCall "HassTurnOn" [("x", .vInt 1)]

/-! Theorems. -/

/-- Inversion of a successful bind in the Except monad. -/
theorem exceptBind_ok {α β : Type} {x : Except PyErr α} {f : α → Except PyErr β} {b : β}
    (h : x >>= f = .ok b) : ∃ a, x = .ok a ∧ f a = .ok b := by
  cases x with
  | error e => exact absurd h (by simp [Bind.bind, Except.bind])
  | ok a => exact ⟨a, rfl, by simpa [Bind.bind, Except.bind] using h⟩

/-- The aggregation Boolean holds exactly when every dimension verdict other
than NotApplicable is Correct. -/
theorem applicableAllCorrect_iff (r : DimensionResults) :
    applicableAllCorrect r = true ↔ ∀ v ∈ r.toList, v ≠ Verdict.N → v = Verdict.C := by
  unfold applicableAllCorrect
  simp [List.all_eq_true, List.mem_filter]
  exact ⟨fun h v hv hne => (h v hv).resolve_left hne,
         fun h v hv => or_iff_not_imp_left.mpr (h v hv)⟩

/-- A successful _score_dimensions run determines each field as the result
of its dimension check. -/
theorem scoreDimensions_fields (e : Value) (a : List Value) (ty : String)
    (r : DimensionResults) (h : scoreDimensions e a ty = .ok r) :
    checkResponseType ty e a = .ok r.response_type ∧
    checkFormatValidity a = .ok r.format_valid ∧
    checkCallCount e a = .ok r.call_count ∧
    checkToolNames e a = .ok r.tool_name ∧
    checkArguments e a = .ok r.args ∧
    checkNoHallucinatedTools a = .ok r.no_hallucinated_tools := by
  unfold scoreDimensions at h
  obtain ⟨v1, h1, h⟩ := exceptBind_ok h
  obtain ⟨v2, h2, h⟩ := exceptBind_ok h
  obtain ⟨v3, h3, h⟩ := exceptBind_ok h
  obtain ⟨v4, h4, h⟩ := exceptBind_ok h
  obtain ⟨v5, h5, h⟩ := exceptBind_ok h
  obtain ⟨v6, h6, h⟩ := exceptBind_ok h
  have hr : r = ⟨v1, v2, v3, v4, v5, v6⟩ := by
    cases h
    rfl
  subst hr
  exact ⟨h1, h2, h3, h4, h5, h6⟩

/-- _check_call_count only ever returns Correct or Incorrect. -/
theorem checkCallCount_CI (e : Value) (a : List Value) (v : Verdict)
    (h : checkCallCount e a = .ok v) : v = Verdict.C ∨ v = Verdict.I := by
  unfold checkCallCount at h
  split at h
  · simp [Pure.pure, Except.pure] at h
    exact Or.inl h.symm
  · obtain ⟨u, hu, h⟩ := exceptBind_ok h
    obtain ⟨n, hn, h⟩ := exceptBind_ok h
    split at h
    · simp [Pure.pure, Except.pure] at h
      exact Or.inl h.symm
    · simp [Pure.pure, Except.pure] at h
      exact Or.inr h.symm

/-- C2: for every expected call set, actual call list and response-type
metadata whose dimension scoring succeeds, the overall verdict is Correct
iff every dimension verdict that is not NotApplicable equals Correct, and
it is vacuously Correct when every dimension verdict is NotApplicable. -/
theorem overall_correct_iff_all (e : Value) (a : List Value) (ty : String)
    (r : DimensionResults) (_h : scoreDimensions e a ty = .ok r) :
    (overallVerdict r = Verdict.C ↔ ∀ v ∈ r.toList, v ≠ Verdict.N → v = Verdict.C) ∧
    ((∀ v ∈ r.toList, v = Verdict.N) → overallVerdict r = Verdict.C) := by
  clear _h
  have key := applicableAllCorrect_iff r
  constructor
  · unfold overallVerdict
    cases hb : applicableAllCorrect r
    · rw [hb] at key
      simp only [Bool.false_eq_true, false_iff] at key
      rw [if_neg (by simp)]
      exact iff_of_false (by simp) key
    · rw [hb] at key
      simp only [true_iff] at key
      rw [if_pos rfl]
      exact iff_of_true rfl key
  · intro hall
    have hb : applicableAllCorrect r = true := by
      rw [applicableAllCorrect_iff]
      intro v hv hne
      exact absurd (hall v hv) hne
    simp [overallVerdict, hb]

/-- C2 witness: the iff evaluated at the dimension results of the empty
expected list against the empty actual list with action_done. -/
theorem overall_correct_iff_all_witness :
    (overallVerdict ⟨Verdict.I, Verdict.N, Verdict.C, Verdict.N, Verdict.N, Verdict.N⟩ = Verdict.C ↔
      ∀ v ∈ (DimensionResults.mk Verdict.I Verdict.N Verdict.C Verdict.N Verdict.N Verdict.N).toList,
        v ≠ Verdict.N → v = Verdict.C) ∧
    ((∀ v ∈ (DimensionResults.mk Verdict.I Verdict.N Verdict.C Verdict.N Verdict.N Verdict.N).toList,
        v = Verdict.N) →
      overallVerdict ⟨Verdict.I, Verdict.N, Verdict.C, Verdict.N, Verdict.N, Verdict.N⟩ = Verdict.C) :=
  overall_correct_iff_all (.vList []) [] "action_done"
    ⟨Verdict.I, Verdict.N, Verdict.C, Verdict.N, Verdict.N, Verdict.N⟩ rfl

/-- C10: whenever dimension scoring succeeds, the call_count verdict is
Correct or Incorrect — never NotApplicable — so the results always contain
at least one applicable dimension and the overall verdict is never decided
by the vacuous all-NotApplicable case. -/
theorem call_count_never_na (e : Value) (a : List Value) (ty : String)
    (r : DimensionResults) (h : scoreDimensions e a ty = .ok r) :
    (r.call_count = Verdict.C ∨ r.call_count = Verdict.I) ∧
    ∃ v ∈ r.toList, v ≠ Verdict.N := by
  have hcc := (scoreDimensions_fields e a ty r h).2.2.1
  have hci := checkCallCount_CI e a r.call_count hcc
  refine ⟨hci, ⟨r.call_count, ?_, ?_⟩⟩
  · simp [DimensionResults.toList]
  · rcases hci with h1 | h1 <;> simp [h1]

/-- C10 witness: call_count is applicable for the empty expected and actual
lists with action_done. -/
theorem call_count_never_na_witness :
    ((DimensionResults.mk Verdict.I Verdict.N Verdict.C Verdict.N Verdict.N Verdict.N).call_count = Verdict.C ∨
      (DimensionResults.mk Verdict.I Verdict.N Verdict.C Verdict.N Verdict.N Verdict.N).call_count = Verdict.I) ∧
    ∃ v ∈ (DimensionResults.mk Verdict.I Verdict.N Verdict.C Verdict.N Verdict.N Verdict.N).toList,
      v ≠ Verdict.N :=
  call_count_never_na (.vList []) [] "action_done"
    ⟨Verdict.I, Verdict.N, Verdict.C, Verdict.N, Verdict.N, Verdict.N⟩ rfl

/-- The hallucination loop over a list of call dicts returns Incorrect
exactly when some call has a truthy name outside the allow-list, and
Correct exactly when none has. -/
theorem hallucinationLoop_spec (l : List Value) (hd : ∀ c ∈ l, c.isDict = true) :
    (hallucinationLoop l = .ok Verdict.I ↔ ∃ c ∈ l, flaggedCall c) ∧
    (hallucinationLoop l = .ok Verdict.C ↔ ∀ c ∈ l, ¬ flaggedCall c) := by
  induction l with
  | nil => simp [hallucinationLoop, Pure.pure, Except.pure]
  | cons c rest ih =>
    have hcd : c.isDict = true := hd c (by simp)
    have ih2 := ih fun x hx => hd x (by simp [hx])
    rcases c with _ | b | n | q | s | items | entries <;> simp [Value.isDict] at hcd
    have hname : nameField (.vDict entries) = dictGetD entries "name" .vNone := rfl
    by_cases hflag : flaggedCall (.vDict entries)
    · obtain ⟨ht, hv⟩ := hflag
      rw [hname] at ht hv
      have hloop : hallucinationLoop (.vDict entries :: rest) = .ok Verdict.I := by
        simp [hallucinationLoop, pyDictGet, Bind.bind, Except.bind, ht, hv, Pure.pure, Except.pure]
      constructor
      · rw [hloop]
        simp only [true_iff]
        exact ⟨.vDict entries, by simp, ⟨by rw [hname]; exact ht, by rw [hname]; exact hv⟩⟩
      · rw [hloop]
        constructor
        · intro hcontra
          exact absurd hcontra (by simp)
        · intro hall
          exact absurd (⟨by rw [hname]; exact ht, by rw [hname]; exact hv⟩ : flaggedCall (.vDict entries))
            (hall (.vDict entries) (by simp))
    · have hcond : (pyTruthy (dictGetD entries "name" .vNone) &&
          !valueInStrList (dictGetD entries "name" .vNone) VALID_TOOL_NAMES) = false := by
        rw [flaggedCall, hname] at hflag
        push_neg at hflag
        cases ht : pyTruthy (dictGetD entries "name" .vNone)
        · simp
        · have := hflag ht
          simp [this]
      have hloop : hallucinationLoop (.vDict entries :: rest) = hallucinationLoop rest := by
        simp [hallucinationLoop, pyDictGet, Bind.bind, Except.bind, hcond, Pure.pure, Except.pure]
      rw [hloop]
      constructor
      · rw [ih2.1]
        simp [hflag]
      · rw [ih2.2]
        simp [hflag]

/-- C4 (counterexample): an actual call whose name is the empty string —
and likewise one with no name entry at all — is outside the allow-list,
yet no_hallucinated_tools returns Correct rather than Incorrect, because
the loop only tests truthy names. -/
theorem hallucination_empty_name_not_flagged :
    checkNoHallucinatedTools [.vDict [("name", .vStr ""), ("arguments", .vDict [])]] =
      .ok Verdict.C ∧
    valueInStrList (.vStr "") VALID_TOOL_NAMES = false ∧
    checkNoHallucinatedTools [.vDict [("arguments", .vDict [])]] = .ok Verdict.C :=
  ⟨rfl, rfl, rfl⟩

/-- C4 (amended): for a non-empty actual list of call dicts, the
no_hallucinated_tools dimension is Incorrect iff some call's name is truthy
(present and non-empty) and outside the allow-list, Correct iff no call has
such a name — calls whose name is empty or missing are skipped by the
check — and the dimension is NotApplicable for the empty actual list. -/
theorem no_hallucinated_truthy_names_only (actual : List Value)
    (hne : actual ≠ []) (hd : ∀ c ∈ actual, c.isDict = true) :
    (checkNoHallucinatedTools actual = .ok Verdict.I ↔ ∃ c ∈ actual, flaggedCall c) ∧
    (checkNoHallucinatedTools actual = .ok Verdict.C ↔ ∀ c ∈ actual, ¬ flaggedCall c) ∧
    checkNoHallucinatedTools [] = .ok Verdict.N := by
  have hloop := hallucinationLoop_spec actual hd
  have hemp : actual.isEmpty = false := by
    cases actual
    · exact absurd rfl hne
    · rfl
  unfold checkNoHallucinatedTools
  rw [hemp]
  exact ⟨hloop.1, hloop.2, rfl⟩

/-- String append acts on character data by concatenation. -/
theorem data_append (a b : String) : (a ++ b).data = a.data ++ b.data := rfl

/-- Every key of the form base ++ "_any_of" passes the endswith test of the
matcher. -/
theorem endsWith_anyOf (base : String) : pyEndsWith (base ++ "_any_of") "_any_of" = true := by
  unfold pyEndsWith
  rw [decide_eq_true_eq]
  rw [data_append]
  exact List.suffix_append _ _

/-- Python key[:-7] recovers the base key from base ++ "_any_of". -/
theorem slice_anyOf (base : String) : pySliceToMinus (base ++ "_any_of") 7 = base := by
  unfold pySliceToMinus
  rw [data_append]
  have h7 : ("_any_of" : String).data.length = 7 := rfl
  rw [List.length_append, h7, Nat.add_sub_cancel]
  rw [List.take_left]

/-- Python == is reflexive on strings. -/
theorem pyEq_str_self (s : String) : pyEq (.vStr s) (.vStr s) = true := by
  simp [pyEq, asNum]

/-- An if-expression on the tolerance test succeeds exactly when the
Python-computed absolute difference is at most the double 0.01. -/
theorem ite_tol_iff (ev av : Value) :
    ((if tolExceeded ev av = true then (Except.ok false : Except PyErr Bool) else .ok true) =
        .ok true ↔ pyAbsDiff ev av ≤ f001) := by
  unfold tolExceeded
  cases hlt : decide (f001 < pyAbsDiff ev av)
  · simp only [Bool.false_eq_true, if_false]
    exact iff_of_true (by simp) (not_lt.mp (of_decide_eq_false hlt))
  · simp only [if_true]
    exact iff_of_false (by simp) (not_le.mpr (of_decide_eq_true hlt))

/-- C4 witness: the amended characterization evaluated at a single call
with the non-allow-listed truthy name "FooTool". -/
theorem no_hallucinated_truthy_names_only_witness :
    ((checkNoHallucinatedTools [.vDict [("name", .vStr "FooTool")]] = .ok Verdict.I ↔
        ∃ c ∈ [Value.vDict [("name", .vStr "FooTool")]], flaggedCall c) ∧
      (checkNoHallucinatedTools [.vDict [("name", .vStr "FooTool")]] = .ok Verdict.C ↔
        ∀ c ∈ [Value.vDict [("name", .vStr "FooTool")]], ¬ flaggedCall c) ∧
      checkNoHallucinatedTools [] = .ok Verdict.N) :=
  no_hallucinated_truthy_names_only [.vDict [("name", .vStr "FooTool")]]
    (by simp)
    (by
      intro c hc
      simp at hc
      subst hc
      rfl)

/-- C6 (counterexample): in the program's IEEE binary64 arithmetic, the
floats written 1.01 and 1.0 — decimal values exactly 0.01 apart — do NOT
match: the rounded difference is 45035996273705 / 2^52 =
0.010000000000000009, which exceeds the double 0.01 =
5764607523034235 / 2^59, so the matcher returns false and the claim's
boundary case fails. -/
theorem numeric_tolerance_boundary_cex :
    toolCallMatches
        (mkCall "HassClimateSetTemperature" [("temperature", .vFloat (mkRat 101 100))])
        (mkCall "HassClimateSetTemperature" [("temperature", .vFloat 1)]) = .ok false ∧
    fSub (floatVal (.vFloat (mkRat 101 100))) (floatVal (.vFloat 1)) =
      mkRat 45035996273705 4503599627370496 ∧
    f001 = mkRat 5764607523034235 576460752303423488 ∧
    mkRat 5764607523034235 576460752303423488 < mkRat 45035996273705 4503599627370496 := by
  refine ⟨rfl, by decide, by decide, by decide⟩

/-- C6 (amended): for numeric (integer or floating-point) expected and
actual values under the same plain key, the argument matcher succeeds on
that key iff the absolute difference Python computes — IEEE binary64
subtraction when a float is involved, exact integer subtraction otherwise —
is at most the double value of the literal 0.01.  Values 0.02 apart never
match; for values nominally exactly 0.01 apart the outcome depends on
rounding (0.0 against 0.01 matches, 1.0 against 1.01 does not). -/
theorem numeric_tolerance_matches (nm key : String) (ev av : Value)
    (hk : pyEndsWith key "_any_of" = false)
    (he : isIntOrFloat ev = true) (ha : isIntOrFloat av = true) :
    (toolCallMatches (mkCall nm [(key, ev)]) (mkCall nm [(key, av)]) = .ok true ↔
      pyAbsDiff ev av ≤ f001) := by
  have step1 : toolCallMatches (mkCall nm [(key, ev)]) (mkCall nm [(key, av)]) =
      (if (!pyEq (.vStr nm) (.vStr nm)) = true then .ok false
       else matchesArgLoop (.vDict [(key, av)]) [(key, ev)]) := rfl
  rw [step1, pyEq_str_self]
  simp only [Bool.not_true, Bool.false_eq_true, if_false]
  simp only [matchesArgLoop, hk, Bool.false_eq_true, if_false, pyDictGet, dictGetD,
    List.lookup, beq_self_eq_true, Option.getD_some, Bind.bind, Except.bind]
  rcases ev with _ | b1 | n1 | q1 | s1 | it1 | en1 <;>
    (try simp only [isIntOrFloat, Bool.false_eq_true] at he) <;>
    rcases av with _ | b2 | n2 | q2 | s2 | it2 | en2 <;>
      (try simp only [isIntOrFloat, Bool.false_eq_true] at ha)
  · exact ite_tol_iff (.vInt n1) (.vInt n2)
  · exact ite_tol_iff (.vInt n1) (.vFloat q2)
  · exact ite_tol_iff (.vFloat q1) (.vInt n2)
  · exact ite_tol_iff (.vFloat q1) (.vFloat q2)

/-- C6 witness: 0.0 against 0.01 (difference exactly the double 0.01)
matches; 1.0 against 1.02 does not. -/
theorem numeric_tolerance_matches_witness :
    toolCallMatches (mkCall "HassClimateSetTemperature" [("temperature", .vFloat 0)])
        (mkCall "HassClimateSetTemperature" [("temperature", .vFloat (mkRat 1 100))]) = .ok true ∧
    toolCallMatches (mkCall "HassClimateSetTemperature" [("temperature", .vFloat 1)])
        (mkCall "HassClimateSetTemperature" [("temperature", .vFloat (mkRat 102 100))]) = .ok false := by
  constructor
  · exact (numeric_tolerance_matches "HassClimateSetTemperature" "temperature"
      (.vFloat 0) (.vFloat (mkRat 1 100)) rfl rfl rfl).mpr (by decide)
  · rfl

/-- C7: for an expected key base ++ "_any_of" whose expected value is a
sequence, the matcher strips the suffix to the base key, fails when the
actual arguments hold no value there, and otherwise succeeds iff the
normalized (stringified, trimmed, lower-cased) actual value equals the
normalization of some element of the expected sequence. -/
theorem any_of_list_match (nm base : String) (alts : List Value) (a : List (String × Value)) :
    toolCallMatches (mkCall nm [(base ++ "_any_of", .vList alts)]) (mkCall nm a) =
      .ok (if (dictGetD a base .vNone).isNone then false
           else alts.any fun v => pyNormalize (dictGetD a base .vNone) = pyNormalize v) := by
  have step1 : toolCallMatches (mkCall nm [(base ++ "_any_of", .vList alts)]) (mkCall nm a) =
      (if (!pyEq (.vStr nm) (.vStr nm)) = true then .ok false
       else matchesArgLoop (.vDict a) [(base ++ "_any_of", .vList alts)]) := rfl
  rw [step1, pyEq_str_self]
  simp only [Bool.not_true, Bool.false_eq_true, if_false]
  simp only [matchesArgLoop, endsWith_anyOf, if_true, slice_anyOf, pyDictGet,
    Bind.bind, Except.bind, Pure.pure, Except.pure]
  cases hn : (dictGetD a base .vNone).isNone
  · simp only [Bool.false_eq_true, if_false]
    cases hany : alts.any fun v => pyNormalize (dictGetD a base .vNone) = pyNormalize v
    · simp [hany]
    · simp [hany]
  · simp [hn]

/-- C9: for an expected key base ++ "_any_of" whose expected value is NOT a
sequence, the matcher treats the key as satisfied exactly when the actual
arguments hold a non-None value under the base key; the expected value is
never compared (the result does not depend on it). -/
theorem any_of_non_list_ignores_expected (nm base : String) (ev : Value)
    (a : List (String × Value)) (hev : ev.isList = false) :
    toolCallMatches (mkCall nm [(base ++ "_any_of", ev)]) (mkCall nm a) =
      .ok (!(dictGetD a base .vNone).isNone) := by
  have step1 : toolCallMatches (mkCall nm [(base ++ "_any_of", ev)]) (mkCall nm a) =
      (if (!pyEq (.vStr nm) (.vStr nm)) = true then .ok false
       else matchesArgLoop (.vDict a) [(base ++ "_any_of", ev)]) := rfl
  rw [step1, pyEq_str_self]
  simp only [Bool.not_true, Bool.false_eq_true, if_false]
  simp only [matchesArgLoop, endsWith_anyOf, if_true, slice_anyOf, pyDictGet,
    Bind.bind, Except.bind, Pure.pure, Except.pure]
  cases hn : (dictGetD a base .vNone).isNone
  · simp only [Bool.false_eq_true, if_false, Bool.not_false]
    rcases ev with _ | b | n | q | s | items | entries
    · rfl
    · rfl
    · rfl
    · rfl
    · rfl
    · simp [Value.isList] at hev
    · rfl
  · simp [hn]

/-- C9 witness: with a non-sequence expected value 7 under name_any_of, the
key is satisfied when the actual holds any value under name and fails when
it holds none. -/
theorem any_of_non_list_witness :
    toolCallMatches (mkCall "HassTurnOn" [("name" ++ "_any_of", .vInt 7)])
        (mkCall "HassTurnOn" [("name", .vStr "x")]) = .ok true ∧
    toolCallMatches (mkCall "HassTurnOn" [("name" ++ "_any_of", .vInt 7)])
        (mkCall "HassTurnOn" []) = .ok false := by
  constructor
  · rw [any_of_non_list_ignores_expected "HassTurnOn" "name" (.vInt 7) [("name", .vStr "x")] rfl]
    rfl
  · rw [any_of_non_list_ignores_expected "HassTurnOn" "name" (.vInt 7) [] rfl]
    rfl

/-- C1 (counterexample): a target that decodes to a value that is not a
sequence of calls — here the empty dict — is NOT short-circuited to the
terminal Incorrect score with the fixed diagnostic and empty
serialized-actual: the scorer proceeds into normal dimension scoring and
returns an ordinary score whose serialized-actual field is "[]". -/
theorem score_nonsequence_target_not_short_circuited :
    score (some (.vDict [])) [] "action_done" (.vList []) ≠
      .ok (errorScoreMk "Target parse error") ∧
    (score (some (.vDict [])) [] "action_done" (.vList [])).map Score.answer ≠
      .ok "" := by
  decide

/-- C1 (amended): only a decode failure of the target (malformed encoding,
or a TypeError raised by json.loads itself) short-circuits to the terminal
Incorrect score with the fixed diagnostic "Scoring error: Target parse
error" and empty serialized-actual.  A successfully decoded non-sequence
value is not short-circuited: a decoded empty dict flows through normal
scoring to an ordinary Incorrect score with serialized-actual "[]", and a
decoded number raises TypeError past the boundary. -/
theorem score_parse_failure_short_circuit :
    (∀ (actual : List Value) (ty : String) (alts : Value),
      score none actual ty alts = .ok (errorScoreMk "Target parse error")) ∧
    (score (some (.vDict [])) [] "action_done" (.vList [])).map Score.value =
      .ok Verdict.I ∧
    (score (some (.vDict [])) [] "action_done" (.vList [])).map Score.answer =
      .ok "[]" ∧
    score (some (.vInt 5)) [] "action_done" (.vList []) = .error PyErr.typeError :=
  ⟨fun _ _ _ => rfl, rfl, rfl, rfl⟩

/-- C5 (code bug demonstration): the greedy argument matcher of
_check_arguments is order-dependent, contradicting its own docstring
("order-independent matching") and the permutation-invariance property:
the actual list [greedyExp2, greedyExp1] is a permutation of the expected
list [greedyExp1, greedyExp2] with identical (hence matching) arguments,
tool_name is Correct, and the identity ordering scores args = Correct, yet
the swapped ordering scores args = Incorrect because the empty-argument
expected call greedily absorbs the wrong actual call. -/
theorem greedy_matching_order_dependent :
    [greedyExp1, greedyExp2].Perm [greedyExp2, greedyExp1] ∧
    checkToolNames (.vList [greedyExp1, greedyExp2]) [greedyExp2, greedyExp1] =
      .ok Verdict.C ∧
    checkArguments (.vList [greedyExp1, greedyExp2]) [greedyExp1, greedyExp2] =
      .ok Verdict.C ∧
    checkArguments (.vList [greedyExp1, greedyExp2]) [greedyExp2, greedyExp1] =
      .ok Verdict.I :=
  ⟨List.Perm.swap _ _ _, rfl, rfl, rfl⟩

/-- C8 (counterexample): the spec's end-to-end example uses the tool name
"TurnOn", which is outside VALID_TOOL_NAMES, so no_hallucinated_tools is
Incorrect and the overall verdict is Incorrect, not Correct. -/
theorem endtoend_example_turnon_incorrect :
    (score (some (.vList [mkCall "TurnOn" [("name", .vStr "Kitchen Light")]]))
        [mkCall "TurnOn" [("name", .vStr "kitchen light")]]
        "action_done" (.vList [])).map Score.value = .ok Verdict.I ∧
    valueInStrList (.vStr "TurnOn") VALID_TOOL_NAMES = false :=
  ⟨rfl, rfl⟩

/-- C8 (amended): with the allow-listed name "HassTurnOn" in both calls,
the end-to-end example behaves as intended: expected argument
"Kitchen Light" matches actual "kitchen light" case-insensitively and the
overall verdict is Correct. -/
theorem endtoend_example_hassturnon_correct :
    (score (some (.vList [mkCall "HassTurnOn" [("name", .vStr "Kitchen Light")]]))
        [mkCall "HassTurnOn" [("name", .vStr "kitchen light")]]
        "action_done" (.vList [])).map Score.value = .ok Verdict.C :=
  rfl

/-- The alternatives loop returns the first fully passing alternative's
results and normalized quality/reason; failing alternatives before it are
scanned and their results discarded, alternatives after it are never
examined. -/
theorem tryAlternatives_first_success (actual : List Value) (ty : String)
    (pre post : List Value) (alt : Value)
    (altCalls q r : Value) (res : DimensionResults)
    (hpre : ∀ a ∈ pre, AltFails a actual ty)
    (hnorm : normalizeAlt alt = .ok (altCalls, q, r))
    (hres : scoreDimensions altCalls actual ty = .ok res)
    (hsucc : applicableAllCorrect res = true) :
    tryAlternatives actual ty (pre ++ alt :: post) = .ok (some (res, q, r)) := by
  induction pre with
  | nil =>
    simp [tryAlternatives, hnorm, Bind.bind, Except.bind, hres, hsucc]
  | cons a pre ih =>
    obtain ⟨c0, q0, r0, res0, hn0, hs0, hf0⟩ := hpre a (by simp)
    simp only [List.cons_append, tryAlternatives, hn0, Bind.bind, Except.bind, hs0, hf0,
      Bool.false_eq_true, if_false]
    exact ih fun x hx => hpre x (by simp [hx])

/-- Rendering call lines succeeds on a list of call dicts. -/
theorem renderAll_ok (l : List Value) (h : ∀ c ∈ l, c.isDict = true) :
    ∃ s, mapExceptStr renderCallLine l = Except.ok s := by
  induction l with
  | nil => exact ⟨[], rfl⟩
  | cons c rest ih =>
    obtain ⟨s, hs⟩ := ih fun x hx => h x (by simp [hx])
    have hcd := h c (by simp)
    rcases c with _ | _ | _ | _ | _ | _ | entries <;> simp [Value.isDict] at hcd
    refine ⟨("  " ++ pyStr (dictGetD entries "name" (.vStr "?")) ++ "(" ++
      pyStr (dictGetD entries "arguments" (.vDict [])) ++ ")") :: s, ?_⟩
    simp only [mapExceptStr, renderCallLine, pyDictGet, Bind.bind, Except.bind, hs,
      Pure.pure, Except.pure]

/-- Serialization succeeds on a list of call dicts. -/
theorem serializeActual_ok (l : List Value) (h : ∀ c ∈ l, c.isDict = true) :
    ∃ s, serializeActualCalls l = Except.ok s := by
  induction l with
  | nil => exact ⟨[], rfl⟩
  | cons c rest ih =>
    obtain ⟨s, hs⟩ := ih fun x hx => h x (by simp [hx])
    have hcd := h c (by simp)
    rcases c with _ | _ | _ | _ | _ | _ | entries <;> simp [Value.isDict] at hcd
    unfold serializeActualCalls at hs ⊢
    simp only [pyDictGet, Bind.bind, Except.bind] at hs
    refine ⟨(Value.vDict [("name", dictGetD entries "name" .vNone),
      ("arguments", dictGetD entries "arguments" (.vDict []))]) :: s, ?_⟩
    simp only [mapExcept, pyDictGet, Bind.bind, Except.bind, hs,
      Pure.pure, Except.pure]

/-- Explanation building succeeds when the expected value is a list of
call dicts and the actual calls are dicts. -/
theorem buildExplanation_ok (ecs actual : List Value) (res : DimensionResults) (mq mr : Value)
    (he : ∀ c ∈ ecs, c.isDict = true) (ha : ∀ c ∈ actual, c.isDict = true) :
    ∃ s, buildExplanation (.vList ecs) actual res mq mr = .ok s := by
  obtain ⟨l1, h1⟩ := renderAll_ok ecs he
  obtain ⟨l2, h2⟩ := renderAll_ok actual ha
  refine ⟨joinSep "\n"
      (("MATCH_QUALITY: " ++ pyStr mq) ::
        ((if pyTruthy mr = true then ["MATCH_REASON: " ++ pyStr mr] else []) ++
          ("Expected " ++ toString ecs.length ++ " call(s):") ::
            (l1 ++
              ("Got " ++ toString actual.length ++ " call(s):") ::
                (l2 ++ "" :: "Checks:" :: checklistLines res)))), ?_⟩
  simp only [buildExplanation, pyLen, pyIter, h1, h2, Bind.bind, Except.bind,
    Pure.pure, Except.pure]
  congr 1
  simp [List.append_assoc]

/-- C3: when the primary expected set fails, the scorer iterates the
alternatives in order; each is normalized to (tool_calls, quality, reason)
with quality defaulting to "acceptable" and reason to "" for the legacy
bare-list form; at the first alternative whose applicable dimension
verdicts are all Correct the loop stops and returns that alternative's
DimensionResults, quality and reason — the results of every earlier failing
alternative are discarded, the later alternatives are never examined — and
the adopted aggregate (and the final overall Score value) is Correct. -/
theorem alternatives_adopt_first_success
    (ecs actual : List Value) (ty : String)
    (pre post : List Value) (alt : Value)
    (altCalls q r : Value) (res pres : DimensionResults)
    (he : ∀ c ∈ ecs, c.isDict = true) (ha : ∀ c ∈ actual, c.isDict = true)
    (hprimary : scoreDimensions (.vList ecs) actual ty = .ok pres)
    (hfail : overallVerdict pres = Verdict.I)
    (hpre : ∀ a ∈ pre, AltFails a actual ty)
    (hnorm : normalizeAlt alt = .ok (altCalls, q, r))
    (hres : scoreDimensions altCalls actual ty = .ok res)
    (hsucc : applicableAllCorrect res = true) :
    tryAlternatives actual ty (pre ++ alt :: post) = .ok (some (res, q, r)) ∧
    overallVerdict res = Verdict.C ∧
    (∀ v : Value, v.isDict = false → normalizeAlt v = .ok (v, .vStr "acceptable", .vStr "")) ∧
    (score (some (.vList ecs)) actual ty (.vList (pre ++ alt :: post))).map Score.value =
      .ok Verdict.C := by
  have hloop := tryAlternatives_first_success actual ty pre post alt altCalls q r res
    hpre hnorm hres hsucc
  refine ⟨hloop, by simp [overallVerdict, hsucc], ?_, ?_⟩
  · intro v hv
    rcases v with _ | _ | _ | _ | _ | _ | _
    · rfl
    · rfl
    · rfl
    · rfl
    · rfl
    · rfl
    · simp [Value.isDict] at hv
  · obtain ⟨expl, hexpl⟩ := buildExplanation_ok ecs actual res q r he ha
    obtain ⟨ser, hser⟩ := serializeActual_ok actual ha
    simp only [score, hprimary, Bind.bind, Except.bind, hfail, pyIter, hloop, hexpl, hser,
      Pure.pure, Except.pure, Except.map, eq_self_iff_true, if_true]

/-- C3 witness: a failing primary, one failing legacy alternative, one
succeeding structured alternative, and trailing junk that is never
examined. -/
theorem alternatives_adopt_first_success_witness :
    tryAlternatives [mkCall "HassTurnOn" []] "action_done"
        ([.vList [mkCall "HassLightSet" []]] ++
          (.vDict [("tool_calls", .vList [mkCall "HassTurnOn" []]), ("quality", .vStr "good"),
            ("reason", .vStr "alt ok")]) :: [.vInt 99]) =
      .ok (some (⟨.C, .C, .C, .C, .C, .C⟩, .vStr "good", .vStr "alt ok")) ∧
    overallVerdict ⟨.C, .C, .C, .C, .C, .C⟩ = Verdict.C ∧
    (∀ v : Value, v.isDict = false → normalizeAlt v = .ok (v, .vStr "acceptable", .vStr "")) ∧
    (score (some (.vList [mkCall "HassTurnOff" []])) [mkCall "HassTurnOn" []] "action_done"
        (.vList ([.vList [mkCall "HassLightSet" []]] ++
          (.vDict [("tool_calls", .vList [mkCall "HassTurnOn" []]), ("quality", .vStr "good"),
            ("reason", .vStr "alt ok")]) :: [.vInt 99]))).map Score.value = .ok Verdict.C :=
  alternatives_adopt_first_success
    [mkCall "HassTurnOff" []] [mkCall "HassTurnOn" []] "action_done"
    [.vList [mkCall "HassLightSet" []]] [.vInt 99]
    (.vDict [("tool_calls", .vList [mkCall "HassTurnOn" []]), ("quality", .vStr "good"),
      ("reason", .vStr "alt ok")])
    (.vList [mkCall "HassTurnOn" []]) (.vStr "good") (.vStr "alt ok")
    ⟨.C, .C, .C, .C, .C, .C⟩ ⟨.C, .C, .C, .I, .I, .C⟩
    (by
      intro c hc
      simp at hc
      subst hc
      rfl)
    (by
      intro c hc
      simp at hc
      subst hc
      rfl)
    rfl rfl
    (by
      intro a haMem
      simp at haMem
      subst haMem
      exact ⟨.vList [mkCall "HassLightSet" []], .vStr "acceptable", .vStr "",
        ⟨.C, .C, .C, .I, .I, .C⟩, rfl, rfl, rfl⟩)
    rfl rfl rfl

end ToolCallScorer
